import Mathlib

/-!
# Verification of the UnitreeA1 locomotion environment

This file is a shallow embedding, in Lean 4, of the parts of
`loco_mujoco/environments/quadrupeds/unitreeA1.py` that the verified
properties are about: the fall-detection predicate `_has_fallen`, the
guard clauses of `setup` and `create_dataset`, the task/dataset validation
of `generate`, and the trajectory interpolation map/remap pair together
with the angle/rotation-matrix conversions they use.

Numeric observation values are embedded as exact rationals where the code
only compares against decimal constants, and as real numbers where
trigonometry is involved.
-/

open Real

namespace UnitreeA1

/-! ## Fall detection (`_has_fallen`, lines 290-323) -/

/-- The trunk-list termination condition of `_has_fallen`:
`(trunk_euler[0] < -0.2793) or (trunk_euler[0] > 0.2793)`. -/
def trunk_list_condition (trunk_list : ℚ) : Bool :=
  decide (trunk_list < -0.2793) || decide (trunk_list > 0.2793)

/-- The trunk-tilt termination condition of `_has_fallen`:
`(trunk_euler[1] < -0.192) or (trunk_euler[1] > 0.192)`. -/
def trunk_tilt_condition (trunk_tilt : ℚ) : Bool :=
  decide (trunk_tilt < -0.192) || decide (trunk_tilt > 0.192)

/-- The trunk-height termination condition of `_has_fallen`:
`trunk_height[0] < -.24`. -/
def trunk_height_condition (trunk_height : ℚ) : Bool :=
  decide (trunk_height < -0.24)

/-- `_has_fallen(obs)` with `return_err_msg=False`: the disjunction of the
three trunk conditions, applied to the `q_trunk_list`, `q_trunk_tilt` and
`q_trunk_tz` entries extracted from the observation. -/
def has_fallen (trunk_list trunk_tilt trunk_height : ℚ) : Bool :=
  trunk_list_condition trunk_list || trunk_tilt_condition trunk_tilt ||
    trunk_height_condition trunk_height

/-- `_has_fallen(obs, return_err_msg=True)`: returns the fall verdict and an
error message assembled by an `if`/`elif` chain that names only the first
violated condition. -/
def has_fallen_err_msg (trunk_list trunk_tilt trunk_height : ℚ) : Bool × String :=
  let trunk_condition := has_fallen trunk_list trunk_tilt trunk_height
  let error_msg :=
    if trunk_list_condition trunk_list then ("trunk_list_condition violated.\n")
    else if trunk_tilt_condition trunk_tilt then ("trunk_tilt_condition violated.\n")
    else if trunk_height_condition trunk_height then
      "trunk_height_condition violated. " ++ toString trunk_height ++ " \n"
    else ("")
  (trunk_condition, error_msg)

/-- The entries of an observation (or dataset state) that `_has_fallen`
reads: the trunk list angle, the trunk tilt angle and the trunk height. -/
structure ObsState where
  q_trunk_list : ℚ
  q_trunk_tilt : ℚ
  q_trunk_tz : ℚ
deriving DecidableEq

/-- `_has_fallen` applied to a dataset state. -/
def has_fallen_obs (s : ObsState) : Bool :=
  has_fallen s.q_trunk_list s.q_trunk_tilt s.q_trunk_tz

/-! ## `create_dataset` (lines 145-180)

The construction of the raw dataset (`self.trajectories.create_dataset`)
lives in the base class outside this file's sources; the guard logic of
`UnitreeA1.create_dataset` is embedded over the resulting list of states.
The loop raises `ValueError` at the first state for which `_has_fallen`
holds, and otherwise the dataset is returned unchanged. -/

def create_dataset (trajectories : Option (List ObsState)) :
    Except String (List ObsState) :=
  match trajectories with
  | some states =>
    match states.find? (fun s => has_fallen_obs s) with
    | some s =>
      Except.error
        ("Some of the states in the created dataset are terminal states. " ++
         "This should not happen.\n\nViolations:\n" ++
         (has_fallen_err_msg s.q_trunk_list s.q_trunk_tilt s.q_trunk_tz).2)
    | none => Except.ok states
  | none =>
    Except.error ("No trajectory was passed to the environment. " ++
      "To create a dataset pass a trajectory first.")

/-! ## `setup` (lines 81-131) -/

/-- The attributes of the loaded `Trajectory` object that `setup` reads. -/
structure Trajectories where
  trajectory_length : ℕ
  number_of_trajectories : ℕ
deriving DecidableEq

/-- The possible exceptions raised by the guard section of `setup`:
the three `ValueError` guards, and the `assert` on the initial step. -/
inductive SetupError where
  | valueError (msg : String)
  | assertionError
deriving DecidableEq

/-- Which call to `reset_trajectory` the body of `setup` performs when no
guard fires (abstracting the sampled state itself, which comes from the
external trajectory object). -/
inductive SetupAction where
  /-- `self.trajectories.reset_trajectory()` in the `random_start` branch. -/
  | resetRandom
  /-- `reset_trajectory(substep_no, traj_no)` in the `init_step_no` branch. -/
  | resetAt (substep_no : ℕ) (traj_no : ℕ)
  /-- `reset_trajectory(substep_no=0)` in the default branch. -/
  | resetFirstSample
  /-- no trajectory loaded: the `if self.trajectories is not None` body is skipped. -/
  | noInit
deriving DecidableEq

/-- Python truthiness of the optional integer `self._init_step_no`:
`None` and `0` are falsy. -/
def optNatTruthy : Option ℕ → Bool
  | none => false
  | some n => n != 0

/-- `UnitreeA1.setup(obs)` for `obs = None`: the guard chain (lines 96-101)
followed by the branch selection on `random_start` / `init_step_no`
(lines 103-121), including the `assert` and index computation of the
`init_step_no` branch (lines 110-115). -/
def setup_obs_none (trajectories : Option Trajectories) (random_start : Bool)
    (init_step_no : Option ℕ) : Except SetupError SetupAction :=
  if trajectories.isNone && random_start then
    Except.error (SetupError.valueError
      ("Random start not possible without trajectory data."))
  else if trajectories.isNone && init_step_no.isSome then
    Except.error (SetupError.valueError
      ("Setting an initial step is not possible without trajectory data."))
  else if init_step_no.isSome && random_start then
    Except.error (SetupError.valueError
      ("Either use a random start or set an initial step, not both."))
  else
    match trajectories with
    | none => Except.ok SetupAction.noInit
    | some tr =>
      if random_start then Except.ok SetupAction.resetRandom
      else if optNatTruthy init_step_no then
        let traj_len := tr.trajectory_length
        let n_traj := tr.number_of_trajectories
        let n := init_step_no.getD 0
        if n ≤ traj_len * n_traj then
          Except.ok (SetupAction.resetAt (n % traj_len) (n / traj_len))
        else
          Except.error SetupError.assertionError
      else Except.ok SetupAction.resetFirstSample

/-! ## `generate` (lines 406-466) -/

/-- `valid_task_confs.tasks` (line 27). -/
def valid_task_confs_tasks : List String := ["simple", "hard"]

/-- `valid_task_confs.data_types` (line 28). -/
def valid_task_confs_data_types : List String := ["real"]

/-- Modelled from the spec: `check_validity_task_mode_dataset` from
`loco_mujoco.utils.checks` is not among the sources; per the spec it is a
simple guard-clause validation raising an exception when the requested task
or dataset type is not among the environment's valid task configurations. -/
def check_validity_task_mode_dataset (task dataset_type : String)
    (valid_tasks valid_data : List String) : Except String Unit :=
  if task ∈ valid_tasks then
    if dataset_type ∈ valid_data then Except.ok ()
    else Except.error ("invalid dataset_type " ++ dataset_type)
  else Except.error ("invalid task " ++ task)

/-- The data assembled by `generate` before loading the trajectory. -/
structure MDPModel where
  task : String
  dataset_type : String
  traj_path : String
deriving DecidableEq

/-- `UnitreeA1.generate(task, dataset_type)`: validates the combination,
selects the trajectory path for "simple"/"hard", builds the trajectory
parameters for "real", and raises `ValueError` for "perfect"
(`currently not implemented`). A task or dataset type that reaches the body
without matching any branch leaves `mdp`/`traj_params` unbound, which in
Python raises as well; that is embedded as an error. -/
def generate (task dataset_type : String) : Except String MDPModel :=
  match check_validity_task_mode_dataset task dataset_type
      valid_task_confs_tasks valid_task_confs_data_types with
  | Except.error e => Except.error e
  | Except.ok () =>
    let traj_path? : Except String String :=
      if task = "simple" then Except.ok ("datasets/quadrupeds/walk_straight.npz")
      else if task = "hard" then Except.ok ("datasets/quadrupeds/walk_8_dir.npz")
      else Except.error ("local variable referenced before assignment")
    match traj_path? with
    | Except.error e => Except.error e
    | Except.ok traj_path =>
      if dataset_type = "real" then
        Except.ok { task := task, dataset_type := dataset_type, traj_path := traj_path }
      else if dataset_type = "perfect" then
        Except.error ("currently not implemented.")
      else Except.error ("local variable referenced before assignment")

/-! ## Angle / rotation-matrix conversions

`mat2angle_xy`, `angle2mat_xy` and `transform_angle_2pi` come from
`loco_mujoco.utils.math`, which is not among the sources; they are modelled
from the spec ("rotation-matrix ↔ angle conversions and unwrapping to avoid
discontinuities", "angle↔matrix round-trip"). -/

/-- A 3×3 matrix of reals, row-major, as stored flattened in the
`dir_arrow` observation entry (`SITE_ROT` yields 9 values). -/
structure Mat3 where
  a00 : ℝ
  a01 : ℝ
  a02 : ℝ
  a10 : ℝ
  a11 : ℝ
  a12 : ℝ
  a20 : ℝ
  a21 : ℝ
  a22 : ℝ

/-- Modelled from the spec: `angle2mat_xy` from `loco_mujoco.utils.math`
(absent from src/) converts an angle in the x-y plane to the corresponding
rotation matrix about the vertical axis. -/
noncomputable def angle2mat_xy (angle : ℝ) : Mat3 :=
  ⟨Real.cos angle, -Real.sin angle, 0,
   Real.sin angle, Real.cos angle, 0,
   0, 0, 1⟩

/-- Modelled from the spec: `mat2angle_xy` from `loco_mujoco.utils.math`
(absent from src/) converts a rotation matrix to its angle in the x-y
plane, read off from the first column (the two-argument arctangent of the
(1,0) and (0,0) entries, i.e. the argument of that complex number). -/
noncomputable def mat2angle_xy (mat : Mat3) : ℝ :=
  Complex.arg ((mat.a00 : ℂ) + (mat.a10 : ℂ) * Complex.I)

/-- Modelled from the spec: `transform_angle_2pi` from
`loco_mujoco.utils.math` (absent from src/) wraps an angle into [-π, π)
by the 2π-modulo operation `((angle + π) mod 2π) - π`. -/
noncomputable def transform_angle_2pi (angle : ℝ) : ℝ :=
  (angle + π) - 2 * π * ⌊(angle + π) / (2 * π)⌋ - π

/-- The matrix-to-angle conversion applied after the angle-to-matrix
conversion recovers the angle up to the explicit multiple of 2π that wraps
it into (-π, π]. -/
theorem mat2angle_angle2mat (θ : ℝ) :
    mat2angle_xy (angle2mat_xy θ) = θ + 2 * π * ⌊(π - θ) / (2 * π)⌋ := by
  have h := Complex.arg_cos_add_sin_mul_I_sub θ
  have heq : mat2angle_xy (angle2mat_xy θ) =
      (((Real.cos θ : ℝ) : ℂ) + ((Real.sin θ : ℝ) : ℂ) * Complex.I).arg := rfl
  rw [heq, Complex.ofReal_cos, Complex.ofReal_sin]
  linarith

/-- The angle-to-matrix conversion is 2π-periodic. -/
theorem angle2mat_add_int_mul_two_pi (θ : ℝ) (k : ℤ) :
    angle2mat_xy (θ + 2 * π * k) = angle2mat_xy θ := by
  have harg : θ + 2 * π * k = θ + (k : ℝ) * (2 * π) := by ring
  unfold angle2mat_xy
  rw [harg, Real.cos_add_int_mul_two_pi, Real.sin_add_int_mul_two_pi]

/-- `transform_angle_2pi` shifts its input by a multiple of 2π into the
interval [-π, π). -/
theorem transform_angle_2pi_spec (x : ℝ) :
    ∃ k : ℤ, transform_angle_2pi x = x + 2 * π * k ∧
      -π ≤ transform_angle_2pi x ∧ transform_angle_2pi x < π := by
  have hpi : (0 : ℝ) < π := Real.pi_pos
  have h2pi : (0 : ℝ) < 2 * π := by linarith
  have hfr : (x + π) - 2 * π * ⌊(x + π) / (2 * π)⌋ =
      2 * π * Int.fract ((x + π) / (2 * π)) := by
    rw [Int.fract]
    field_simp
  have h0 : 0 ≤ 2 * π * Int.fract ((x + π) / (2 * π)) :=
    mul_nonneg (le_of_lt h2pi) (Int.fract_nonneg _)
  have h1 : 2 * π * Int.fract ((x + π) / (2 * π)) < 2 * π := by
    have := mul_lt_mul_of_pos_left (Int.fract_lt_one ((x + π) / (2 * π))) h2pi
    linarith
  refine ⟨-⌊(x + π) / (2 * π)⌋, ?_, ?_, ?_⟩
  · unfold transform_angle_2pi
    push_cast
    ring
  · unfold transform_angle_2pi
    linarith [hfr]
  · unfold transform_angle_2pi
    linarith [hfr]

/-- C2: for every angle θ, `mat2angle_xy (angle2mat_xy θ)` equals θ modulo
2π: the angle↔matrix round-trip is the identity up to 2π wrapping. -/
theorem mat2angle_angle2mat_roundtrip (θ : ℝ) :
    ∃ k : ℤ, mat2angle_xy (angle2mat_xy θ) = θ + 2 * π * k :=
  ⟨⌊(π - θ) / (2 * π)⌋, mat2angle_angle2mat θ⟩

/-! ## Theorems about the fall-detection predicate -/

/-- C3 (counterexample): the claim says `_has_fallen` returns True whenever the
trunk list angle is outside the *open* interval (-0.2793, 0.2793); at the
boundary value 0.2793 itself — which is outside the open interval — the code
returns False, because its comparisons are strict. -/
theorem has_fallen_boundary_counterexample :
    ¬(has_fallen 0.2793 0 0 = true ↔
      ((0.2793 : ℚ) ∉ Set.Ioo (-0.2793 : ℚ) 0.2793 ∨
       (0 : ℚ) ∉ Set.Ioo (-0.192 : ℚ) 0.192 ∨
       (0 : ℚ) < -0.24)) := by
  simp only [Set.mem_Ioo, not_and_or, not_lt]
  intro hiff
  have hfalse : has_fallen 0.2793 0 0 = false := by
    simp only [has_fallen, trunk_list_condition, trunk_tilt_condition,
      trunk_height_condition, Bool.or_eq_false_iff, decide_eq_false_iff_not,
      not_lt, gt_iff_lt]
    norm_num
  have : has_fallen 0.2793 0 0 = true := hiff.mpr (Or.inl (Or.inr (by norm_num)))
  rw [hfalse] at this
  exact Bool.false_ne_true this

/-- C3 (amended): `_has_fallen(obs)` returns True iff the trunk list angle is
outside the *closed* interval [-0.2793, 0.2793], or the trunk tilt angle is
outside the closed interval [-0.192, 0.192], or the trunk height is strictly
below -0.24. -/
theorem has_fallen_iff_outside_closed_intervals (l t h : ℚ) :
    has_fallen l t h = true ↔
      (l ∉ Set.Icc (-0.2793 : ℚ) 0.2793 ∨ t ∉ Set.Icc (-0.192 : ℚ) 0.192 ∨
       h < -0.24) := by
  simp only [has_fallen, trunk_list_condition, trunk_tilt_condition,
    trunk_height_condition, Bool.or_eq_true, decide_eq_true_eq,
    Set.mem_Icc, not_and_or, not_le, gt_iff_lt, or_assoc]

/-- Witness for C3 at the concrete input (1, 0, 0). -/
theorem has_fallen_iff_outside_closed_intervals_witness :
    has_fallen 1 0 0 = true ↔
      ((1 : ℚ) ∉ Set.Icc (-0.2793 : ℚ) 0.2793 ∨
       (0 : ℚ) ∉ Set.Icc (-0.192 : ℚ) 0.192 ∨ (0 : ℚ) < -0.24) :=
  has_fallen_iff_outside_closed_intervals 1 0 0

/-- The message of the trunk-height branch of `_has_fallen` is non-empty. -/
theorem height_msg_ne_empty (h : ℚ) :
    ("trunk_height_condition violated. " ++ toString h ++ " \n") ≠ "" := by
  intro h'
  have := congrArg String.length h'
  simp [String.length_append] at this
  exact absurd this.2 (by decide)

/-- C8: `_has_fallen(obs, return_err_msg=True)` returns the same verdict as
the plain call, its message is non-empty exactly when the verdict is True,
and when several conditions are violated the message names only the first
violated condition in the order trunk list, trunk tilt, trunk height. -/
theorem has_fallen_err_msg_spec (l t h : ℚ) :
    (has_fallen_err_msg l t h).1 = has_fallen l t h ∧
    ((has_fallen_err_msg l t h).2 ≠ "" ↔ has_fallen l t h = true) ∧
    (trunk_list_condition l = true →
      (has_fallen_err_msg l t h).2 = "trunk_list_condition violated.\n") ∧
    (trunk_list_condition l = false → trunk_tilt_condition t = true →
      (has_fallen_err_msg l t h).2 = "trunk_tilt_condition violated.\n") ∧
    (trunk_list_condition l = false → trunk_tilt_condition t = false →
      trunk_height_condition h = true →
      (has_fallen_err_msg l t h).2 =
        "trunk_height_condition violated. " ++ toString h ++ " \n") := by
  cases hl : trunk_list_condition l <;> cases ht : trunk_tilt_condition t <;>
    cases hh : trunk_height_condition h <;>
      simp [has_fallen_err_msg, has_fallen, hl, ht, hh, height_msg_ne_empty]

/-- Witness for C8 at the concrete input (1, 0, 0). -/
theorem has_fallen_err_msg_spec_witness :
    (has_fallen_err_msg 1 0 0).1 = has_fallen 1 0 0 ∧
    ((has_fallen_err_msg 1 0 0).2 ≠ "" ↔ has_fallen 1 0 0 = true) ∧
    (trunk_list_condition 1 = true →
      (has_fallen_err_msg 1 0 0).2 = "trunk_list_condition violated.\n") ∧
    (trunk_list_condition 1 = false → trunk_tilt_condition 0 = true →
      (has_fallen_err_msg 1 0 0).2 = "trunk_tilt_condition violated.\n") ∧
    (trunk_list_condition 1 = false → trunk_tilt_condition 0 = false →
      trunk_height_condition 0 = true →
      (has_fallen_err_msg 1 0 0).2 =
        "trunk_height_condition violated. " ++ toString (0 : ℚ) ++ " \n") :=
  has_fallen_err_msg_spec 1 0 0

/-! ## Theorems about `create_dataset` -/

/-- C4: `create_dataset` raises `ValueError` when no trajectory is loaded;
with trajectories present it raises `ValueError` whenever some state of the
built dataset satisfies `_has_fallen`, and any dataset it returns contains
only states for which `_has_fallen` is False. -/
theorem create_dataset_guard :
    (∀ d, create_dataset none ≠ Except.ok d) ∧
    ∀ states : List ObsState,
      ((∃ s ∈ states, has_fallen_obs s = true) →
        ∀ d, create_dataset (some states) ≠ Except.ok d) ∧
      (∀ d, create_dataset (some states) = Except.ok d →
        ∀ s ∈ d, has_fallen_obs s = false) := by
  refine ⟨by simp [create_dataset], fun states => ⟨?_, ?_⟩⟩
  · rintro ⟨s, hs, hfall⟩ d hok
    rcases hfind : states.find? (fun s => has_fallen_obs s) with _ | s'
    · rw [List.find?_eq_none] at hfind
      exact absurd hfall (by simpa using hfind s hs)
    · simp [create_dataset, hfind] at hok
  · intro d hok s hs
    rcases hfind : states.find? (fun s => has_fallen_obs s) with _ | s'
    · simp only [create_dataset, hfind, Except.ok.injEq] at hok
      subst hok
      rw [List.find?_eq_none] at hfind
      simpa using hfind s hs
    · simp [create_dataset, hfind] at hok

/-- Witness for C4: at the one-state dataset whose state has trunk list
angle 1 (a fallen state), `create_dataset` does not return it. -/
theorem create_dataset_guard_witness :
    create_dataset (some [(⟨1, 0, 0⟩ : ObsState)]) ≠
      Except.ok [(⟨1, 0, 0⟩ : ObsState)] :=
  (create_dataset_guard.2 [⟨1, 0, 0⟩]).1
    ⟨⟨1, 0, 0⟩, by simp, by
      simp only [has_fallen_obs, has_fallen, trunk_list_condition,
        trunk_tilt_condition, trunk_height_condition, Bool.or_eq_true,
        decide_eq_true_eq, gt_iff_lt]
      norm_num⟩
    [⟨1, 0, 0⟩]

/-! ## Theorems about `setup` -/

/-- C5: with `obs = None`, `setup` raises a guard `ValueError` exactly when
(a) no trajectory data is loaded and random start is enabled, or (b) no
trajectory data is loaded and an initial step number is set, or (c) an
initial step number is set while random start is enabled. -/
theorem setup_guard_valueerror_iff (trajectories : Option Trajectories)
    (random_start : Bool) (init_step_no : Option ℕ) :
    (∃ msg, setup_obs_none trajectories random_start init_step_no =
        Except.error (SetupError.valueError msg)) ↔
      ((trajectories = none ∧ random_start = true) ∨
       (trajectories = none ∧ init_step_no ≠ none) ∨
       (init_step_no ≠ none ∧ random_start = true)) := by
  cases trajectories <;> cases random_start <;> cases init_step_no
  all_goals simp [setup_obs_none, optNatTruthy]
  all_goals split_ifs <;> simp

/-- Witness for C5: with no trajectories and random start enabled, the guard
`ValueError` is raised. -/
theorem setup_guard_valueerror_iff_witness :
    ∃ msg, setup_obs_none none true none =
      Except.error (SetupError.valueError msg) :=
  (setup_guard_valueerror_iff none true none).mpr (Or.inl ⟨rfl, rfl⟩)

/-- C9: with trajectories loaded, random start disabled and `init_step_no = 0`,
the `elif self._init_step_no:` branch is not taken (0 is falsy), and `setup`
behaves exactly as with `init_step_no = None`: it resets a freshly sampled
trajectory at substep 0. -/
theorem setup_init_step_zero_like_none (tr : Trajectories) :
    setup_obs_none (some tr) false (some 0) =
        setup_obs_none (some tr) false none ∧
      setup_obs_none (some tr) false (some 0) =
        Except.ok SetupAction.resetFirstSample := by
  constructor <;> simp [setup_obs_none, optNatTruthy]

/-- C7 (counterexample): the claim asserts that under the code's own
precondition `init_step_no ≤ traj_len * n_traj` the computed trajectory
index is always `< n_traj`; at `init_step_no = traj_len * n_traj` (here
1 = 1 * 1) the assert passes but the computed trajectory index equals
`n_traj`, which is out of range. -/
theorem setup_init_step_boundary_counterexample :
    (0 : ℕ) < 1 ∧
    (1 : ℕ) ≤ (⟨1, 1⟩ : Trajectories).trajectory_length *
      (⟨1, 1⟩ : Trajectories).number_of_trajectories ∧
    setup_obs_none (some ⟨1, 1⟩) false (some 1) =
      Except.ok (SetupAction.resetAt 0 1) ∧
    ¬((1 : ℕ) < (⟨1, 1⟩ : Trajectories).number_of_trajectories) :=
  ⟨by decide, by decide, rfl, by decide⟩

/-- C7 (amended): in the `init_step_no` branch of `setup` (positive initial
step, random start disabled), under the *strict* precondition
`init_step_no < traj_len * n_traj` the computed indices
`substep_no = init_step_no % traj_len` and
`traj_no = init_step_no / traj_len` are valid: `substep_no < traj_len` and
`traj_no < n_traj`. -/
theorem setup_init_step_indices_valid (tr : Trajectories) (n : ℕ)
    (hpos : 0 < n)
    (hlt : n < tr.trajectory_length * tr.number_of_trajectories) :
    setup_obs_none (some tr) false (some n) =
      Except.ok (SetupAction.resetAt (n % tr.trajectory_length)
        (n / tr.trajectory_length)) ∧
    n % tr.trajectory_length < tr.trajectory_length ∧
    n / tr.trajectory_length < tr.number_of_trajectories := by
  have hlen : 0 < tr.trajectory_length := by
    rcases Nat.eq_zero_or_pos tr.trajectory_length with h | h
    · rw [h, Nat.zero_mul] at hlt; exact absurd hlt (Nat.not_lt_zero n)
    · exact h
  refine ⟨?_, Nat.mod_lt _ hlen, ?_⟩
  · simp [setup_obs_none, optNatTruthy, hpos.ne', Nat.le_of_lt hlt]
  · rw [Nat.div_lt_iff_lt_mul hlen, Nat.mul_comm]
    exact hlt

/-- Witness for C7 (amended) at `traj_len = 2`, `n_traj = 2`,
`init_step_no = 3`. -/
theorem setup_init_step_indices_valid_witness :
    (0 : ℕ) < 3 ∧ (3 : ℕ) < 2 * 2 ∧
    (setup_obs_none (some ⟨2, 2⟩) false (some 3) =
      Except.ok (SetupAction.resetAt (3 % 2) (3 / 2)) ∧
     3 % 2 < 2 ∧ 3 / 2 < 2) :=
  ⟨by decide, by decide,
    setup_init_step_indices_valid ⟨2, 2⟩ 3 (by decide) (by decide)⟩

/-! ## `_modify_observation_callback` (lines 477-506) and the
observation-space bounds of `_get_observation_space` (lines 191-212) -/

/-- The lower bounds `_get_observation_space` declares for the sin-cos
direction feature (line 199). -/
def sin_cos_angle_low : List ℝ := [-1, -1]

/-- The upper bounds `_get_observation_space` declares for the sin-cos
direction feature (line 200). -/
def sin_cos_angle_high : List ℝ := [1, 1]

/-- `_modify_observation_callback(obs, rot_mat_idx, goal_velocity_idx)`:
reads the 3×3 rotation matrix stored flattened at the indices
`rot_mat_idx`, converts it to an angle, wraps the angle to [-π, π], and
replaces the matrix entries (and everything after them) by the cos/sin of
that angle followed by the goal velocity. -/
noncomputable def modify_observation_callback (obs : List ℝ)
    (rot_mat_idx : List ℕ) (goal_velocity_idx : ℕ) : List ℝ :=
  let val : ℕ → ℝ := fun j => obs.getD (rot_mat_idx.getD j 0) 0
  let rot_mat : Mat3 :=
    ⟨val 0, val 1, val 2, val 3, val 4, val 5, val 6, val 7, val 8⟩
  let angle := mat2angle_xy rot_mat
  let angle2 := transform_angle_2pi angle
  let sin_cos := [Real.cos angle2, Real.sin angle2]
  let goal_velocity := obs.getD goal_velocity_idx 0
  obs.take (rot_mat_idx.getD 0 0) ++ sin_cos ++ [goal_velocity]

/-- The cosine component of the direction feature written by
`_modify_observation_callback`, read back at the position where the
rotation matrix began. -/
noncomputable def dir_feature_cos (obs : List ℝ) (rot_mat_idx : List ℕ)
    (goal_velocity_idx : ℕ) : ℝ :=
  (modify_observation_callback obs rot_mat_idx goal_velocity_idx).getD
    (obs.take (rot_mat_idx.getD 0 0)).length 0

/-- The sine component of the direction feature written by
`_modify_observation_callback`. -/
noncomputable def dir_feature_sin (obs : List ℝ) (rot_mat_idx : List ℕ)
    (goal_velocity_idx : ℕ) : ℝ :=
  (modify_observation_callback obs rot_mat_idx goal_velocity_idx).getD
    ((obs.take (rot_mat_idx.getD 0 0)).length + 1) 0

/-- C10: the two direction-feature components that
`_modify_observation_callback` writes (at the position where the rotation
matrix began) always lie within the [-1, 1] bounds that
`_get_observation_space` declares for the sin-cos entries, and their
squares sum to 1. -/
theorem modify_observation_sincos_bounds (obs : List ℝ)
    (rot_mat_idx : List ℕ) (goal_velocity_idx : ℕ) :
    sin_cos_angle_low.getD 0 0 ≤ dir_feature_cos obs rot_mat_idx goal_velocity_idx ∧
      dir_feature_cos obs rot_mat_idx goal_velocity_idx ≤ sin_cos_angle_high.getD 0 0 ∧
    sin_cos_angle_low.getD 1 0 ≤ dir_feature_sin obs rot_mat_idx goal_velocity_idx ∧
      dir_feature_sin obs rot_mat_idx goal_velocity_idx ≤ sin_cos_angle_high.getD 1 0 ∧
    (dir_feature_cos obs rot_mat_idx goal_velocity_idx) ^ 2 +
      (dir_feature_sin obs rot_mat_idx goal_velocity_idx) ^ 2 = 1 := by
  set res := modify_observation_callback obs rot_mat_idx goal_velocity_idx
    with hresdef
  set n := (obs.take (rot_mat_idx.getD 0 0)).length with hn
  set a := transform_angle_2pi (mat2angle_xy
    ⟨obs.getD (rot_mat_idx.getD 0 0) 0, obs.getD (rot_mat_idx.getD 1 0) 0,
     obs.getD (rot_mat_idx.getD 2 0) 0, obs.getD (rot_mat_idx.getD 3 0) 0,
     obs.getD (rot_mat_idx.getD 4 0) 0, obs.getD (rot_mat_idx.getD 5 0) 0,
     obs.getD (rot_mat_idx.getD 6 0) 0, obs.getD (rot_mat_idx.getD 7 0) 0,
     obs.getD (rot_mat_idx.getD 8 0) 0⟩) with ha
  have hres : res = obs.take (rot_mat_idx.getD 0 0) ++
      [Real.cos a, Real.sin a] ++ [obs.getD goal_velocity_idx 0] := rfl
  have hcos : res.getD n 0 = Real.cos a := by
    rw [hres, List.getD_eq_getElem?_getD, List.append_assoc,
      List.getElem?_append_right (Nat.le_refl n), Nat.sub_self]
    rfl
  have hsin : res.getD (n + 1) 0 = Real.sin a := by
    rw [hres, List.getD_eq_getElem?_getD, List.append_assoc,
      List.getElem?_append_right (Nat.le_succ_of_le (Nat.le_refl n))]
    have : n + 1 - n = 1 := by omega
    rw [this]
    rfl
  have hdc : dir_feature_cos obs rot_mat_idx goal_velocity_idx =
      res.getD n 0 := rfl
  have hds : dir_feature_sin obs rot_mat_idx goal_velocity_idx =
      res.getD (n + 1) 0 := rfl
  rw [hdc, hds, hcos, hsin]
  exact ⟨Real.neg_one_le_cos a, Real.cos_le_one a, Real.neg_one_le_sin a,
    Real.sin_le_one a, Real.cos_sq_add_sin_sq a⟩

/-! ## Trajectory interpolation map / remap (lines 609-671)

A trajectory is a list of per-observation columns. Most columns hold
scalar samples; the `dir_arrow` column holds rotation matrices. A column
entry is therefore either a scalar or a matrix. -/

/-- One sample of one observation column: a scalar, or the flattened
rotation matrix of the `dir_arrow` entry. -/
inductive Entry where
  | scalar (x : ℝ)
  | mat (m : Mat3)

/-- The numeric value of a scalar entry (matrix entries never reach the
scalar code paths on well-formed trajectories). -/
def Entry.toScalar : Entry → ℝ
  | Entry.scalar x => x
  | Entry.mat _ => 0

/-- The matrix of a matrix entry (scalar entries never reach the matrix
code path on well-formed trajectories). -/
def Entry.toMat : Entry → Mat3
  | Entry.mat m => m
  | Entry.scalar _ => ⟨0, 0, 0, 0, 0, 0, 0, 0, 0⟩

/-- The per-difference phase correction of `numpy.unwrap` with the default
period 2π and discontinuity threshold π: the difference is wrapped into
(-π, π] (mod into [-π, π), with -π flipped to π for positive differences),
and differences already below the threshold are left untouched. `numpy` is
an external collaborator; this follows its documented algorithm. -/
noncomputable def phaseCorrect (d : ℝ) : ℝ :=
  if |d| < π then 0
  else (if ((d + π) - 2 * π * ⌊(d + π) / (2 * π)⌋ - π) = -π ∧ 0 < d then π
        else (d + π) - 2 * π * ⌊(d + π) / (2 * π)⌋ - π) - d

/-- The running pass of `numpy.unwrap`: each element is shifted by the
accumulated phase correction of the differences of the *original* samples. -/
noncomputable def unwrapGo (prev c : ℝ) : List ℝ → List ℝ
  | [] => []
  | y :: ys => (y + (c + phaseCorrect (y - prev))) ::
      unwrapGo y (c + phaseCorrect (y - prev)) ys

/-- `numpy.unwrap` on a list of samples: the first element is kept, the
rest are corrected cumulatively. -/
noncomputable def unwrapList : List ℝ → List ℝ
  | [] => []
  | x :: xs => x :: unwrapGo x 0 xs

/-- `List.mapIdx` written with an explicit start index, mirroring the
`for i in range(len(traj_list))` loops of `_interpolate_map` and
`_interpolate_remap`. -/
def mapIdxFrom {α β : Type*} (f : ℕ → α → β) : ℕ → List α → List β
  | _, [] => []
  | k, x :: xs => f k x :: mapIdxFrom f (k + 1) xs

/-- `UnitreeA1._interpolate_map(traj, rot_mat_idx, trunk_orientation_idx)`:
unwraps the trunk-orientation columns and converts the rotation-matrix
column to angles (the matrix-to-angle conversion reads the original
column, overwriting the looped copy). -/
noncomputable def interpolate_map (rot_mat_idx : ℕ)
    (trunk_orientation_idx : List ℕ) (traj : List (List Entry)) :
    List (List Entry) :=
  let traj_list := mapIdxFrom (fun i col =>
    if i ∈ trunk_orientation_idx then
      (unwrapList (col.map Entry.toScalar)).map Entry.scalar
    else col) 0 traj
  traj_list.set rot_mat_idx
    ((traj.getD rot_mat_idx []).map
      (fun e => Entry.scalar (mat2angle_xy e.toMat)))

/-- `UnitreeA1._interpolate_remap(traj, angle_idx, trunk_orientation_idx)`:
wraps the trunk-orientation columns into [-π, π) and converts the angle
column back to (flattened) rotation matrices. -/
noncomputable def interpolate_remap (angle_idx : ℕ)
    (trunk_orientation_idx : List ℕ) (traj : List (List Entry)) :
    List (List Entry) :=
  let traj_list := mapIdxFrom (fun i col =>
    if i ∈ trunk_orientation_idx then
      col.map (fun e => Entry.scalar (transform_angle_2pi e.toScalar))
    else col) 0 traj
  traj_list.set angle_idx
    ((traj.getD angle_idx []).map
      (fun e => Entry.mat (angle2mat_xy e.toScalar)))

/-- The observation keys of `_get_observation_specification` (lines
542-588), in order. -/
def observation_spec_keys : List String :=
  ["q_trunk_tx", "q_trunk_ty", "q_trunk_tz", "q_trunk_rotation",
   "q_trunk_list", "q_trunk_tilt",
   "q_FR_hip_joint", "q_FR_thigh_joint", "q_FR_calf_joint",
   "q_FL_hip_joint", "q_FL_thigh_joint", "q_FL_calf_joint",
   "q_RR_hip_joint", "q_RR_thigh_joint", "q_RR_calf_joint",
   "q_RL_hip_joint", "q_RL_thigh_joint", "q_RL_calf_joint",
   "dq_trunk_tx", "dq_trunk_ty", "dq_trunk_tz", "dq_trunk_rotation",
   "dq_trunk_list", "dq_trunk_tilt",
   "dq_FR_hip_joint", "dq_FR_thigh_joint", "dq_FR_calf_joint",
   "dq_FL_hip_joint", "dq_FL_thigh_joint", "dq_FL_calf_joint",
   "dq_RR_hip_joint", "dq_RR_thigh_joint", "dq_RR_calf_joint",
   "dq_RL_hip_joint", "dq_RL_thigh_joint", "dq_RL_calf_joint"]

/-- All observation keys after `__init__` appends the `dir_arrow` entry
(line 65). -/
def all_observation_keys : List String :=
  observation_spec_keys ++ ["dir_arrow"]

/-- `_get_interpolate_map_params` (lines 379-390): the index of the
rotation-matrix column and the indices of the trunk orientation columns. -/
def interpolate_map_params : ℕ × List ℕ :=
  (List.indexOf ("dir_arrow") all_observation_keys,
   [List.indexOf ("q_trunk_rotation") all_observation_keys,
    List.indexOf ("q_trunk_list") all_observation_keys,
    List.indexOf ("q_trunk_tilt") all_observation_keys])

/-- `_get_interpolate_remap_params` (lines 392-403): the index of the
angle column and the indices of the trunk orientation columns. -/
def interpolate_remap_params : ℕ × List ℕ :=
  (List.indexOf ("dir_arrow") all_observation_keys,
   [List.indexOf ("q_trunk_rotation") all_observation_keys,
    List.indexOf ("q_trunk_list") all_observation_keys,
    List.indexOf ("q_trunk_tilt") all_observation_keys])

/-- `_interpolate_map` with the parameters of
`_get_interpolate_map_params`, followed by `_interpolate_remap` with the
parameters of `_get_interpolate_remap_params`. -/
noncomputable def map_then_remap (traj : List (List Entry)) :
    List (List Entry) :=
  interpolate_remap interpolate_remap_params.1 interpolate_remap_params.2
    (interpolate_map interpolate_map_params.1 interpolate_map_params.2 traj)

/-! ### Helper lemmas for the interpolation round-trip -/

/-- `mapIdxFrom` preserves the length. -/
theorem length_mapIdxFrom {α β : Type*} (f : ℕ → α → β) (k : ℕ)
    (l : List α) : (mapIdxFrom f k l).length = l.length := by
  induction l generalizing k with
  | nil => rfl
  | cons x xs ih => simp [mapIdxFrom, ih]

/-- Element access through `mapIdxFrom`. -/
theorem getElem?_mapIdxFrom {α β : Type*} (f : ℕ → α → β) (k : ℕ)
    (l : List α) (j : ℕ) :
    (mapIdxFrom f k l)[j]? = (l[j]?).map (f (k + j)) := by
  induction l generalizing k j with
  | nil => simp [mapIdxFrom]
  | cons x xs ih =>
    cases j with
    | zero => simp [mapIdxFrom]
    | succ j =>
      simp only [mapIdxFrom, List.getElem?_cons_succ]
      rw [ih]
      have harg : k + 1 + j = k + (j + 1) := by omega
      rw [harg]

/-- Columns of `(mapIdxFrom g 0 l).set idx A` away from `idx`. -/
theorem setMapIdx_getElem?_ne {α : Type*} (g : ℕ → α → α) (idx : ℕ)
    (A : α) (l : List α) (i : ℕ) (hne : idx ≠ i) :
    ((mapIdxFrom g 0 l).set idx A)[i]? = (l[i]?).map (g i) := by
  rw [List.getElem?_set_ne hne, getElem?_mapIdxFrom, Nat.zero_add]

/-- The column of `(mapIdxFrom g 0 l).set idx A` at `idx`. -/
theorem setMapIdx_getElem?_eq {α : Type*} (g : ℕ → α → α) (idx : ℕ)
    (A : α) (l : List α) (h : idx < l.length) :
    ((mapIdxFrom g 0 l).set idx A)[idx]? = some A := by
  rw [List.getElem?_set_eq_of_lt]
  rwa [length_mapIdxFrom]

/-- Each phase correction of `numpy.unwrap` is an integer multiple of 2π. -/
theorem phaseCorrect_int_mul (d : ℝ) :
    ∃ k : ℤ, phaseCorrect d = 2 * π * k := by
  unfold phaseCorrect
  by_cases habs : |d| < π
  · exact ⟨0, by simp [habs]⟩
  · rw [if_neg habs]
    by_cases hcase :
        ((d + π) - 2 * π * ⌊(d + π) / (2 * π)⌋ - π) = -π ∧ 0 < d
    · rw [if_pos hcase]
      refine ⟨1 - ⌊(d + π) / (2 * π)⌋, ?_⟩
      have h := hcase.1
      push_cast
      linarith
    · rw [if_neg hcase]
      refine ⟨-⌊(d + π) / (2 * π)⌋, ?_⟩
      push_cast
      ring

/-- The running pass of `numpy.unwrap` preserves lengths and shifts every
element by an integer multiple of 2π, provided the accumulated correction
is such a multiple. -/
theorem unwrapGo_spec (ys : List ℝ) : ∀ prev c : ℝ, (∃ m : ℤ, c = 2 * π * m) →
    (unwrapGo prev c ys).length = ys.length ∧
    ∀ j, ∃ k : ℤ, (unwrapGo prev c ys).getD j 0 = ys.getD j 0 + 2 * π * k := by
  induction ys with
  | nil =>
    intro prev c _
    exact ⟨rfl, fun j => ⟨0, by simp [unwrapGo]⟩⟩
  | cons y ys ih =>
    rintro prev c ⟨m, hm⟩
    obtain ⟨km, hkm⟩ := phaseCorrect_int_mul (y - prev)
    have hc' : ∃ m' : ℤ, c + phaseCorrect (y - prev) = 2 * π * m' :=
      ⟨m + km, by rw [hm, hkm]; push_cast; ring⟩
    obtain ⟨hlen, hical⟩ := ih y (c + phaseCorrect (y - prev)) hc'
    refine ⟨by simpa [unwrapGo] using hlen, fun j => ?_⟩
    cases j with
    | zero =>
      refine ⟨m + km, ?_⟩
      simp only [unwrapGo, List.getD_cons_zero]
      rw [hm, hkm]
      push_cast
      ring
    | succ j =>
      obtain ⟨k, hk⟩ := hical j
      exact ⟨k, by simpa [unwrapGo] using hk⟩

/-- `numpy.unwrap` preserves lengths and shifts every element by an
integer multiple of 2π. -/
theorem unwrapList_spec (p : List ℝ) :
    (unwrapList p).length = p.length ∧
    ∀ j, ∃ k : ℤ, (unwrapList p).getD j 0 = p.getD j 0 + 2 * π * k := by
  cases p with
  | nil => exact ⟨rfl, fun j => ⟨0, by simp [unwrapList]⟩⟩
  | cons x xs =>
    obtain ⟨hlen, hical⟩ := unwrapGo_spec xs x 0 ⟨0, by ring⟩
    refine ⟨by simpa [unwrapList] using hlen, fun j => ?_⟩
    cases j with
    | zero => exact ⟨0, by simp [unwrapList]⟩
    | succ j =>
      obtain ⟨k, hk⟩ := hical j
      exact ⟨k, by simpa [unwrapList] using hk⟩

/-- The index parameters computed from the observation keys. -/
theorem interpolate_map_params_eval :
    interpolate_map_params = (36, [3, 4, 5]) := by decide

/-- The remap parameters coincide with the map parameters. -/
theorem interpolate_remap_params_eval :
    interpolate_remap_params = (36, [3, 4, 5]) := by decide

/-- Element access as `getD` for indices in range. -/
theorem getElem?_eq_some_getD {α : Type*} (l : List α) (i : ℕ) (d : α)
    (h : i < l.length) : l[i]? = some (l.getD i d) := by
  rw [List.getD_eq_getElem?_getD, List.getElem?_eq_getElem h]
  rfl

/-- `getD` computed from a known `getElem?` value. -/
theorem getD_eq_of_getElem? {α : Type*} {l : List α} {j : ℕ} {a : α}
    (d : α) (h : l[j]? = some a) : l.getD j d = a := by
  rw [List.getD_eq_getElem?_getD, h]
  rfl

/-- C1: applying `_interpolate_map` and then `_interpolate_remap` with the
parameters of `_get_interpolate_map_params` / `_get_interpolate_remap_params`
returns the original trajectory, except that each trunk-orientation entry is
replaced by an angle equal to it modulo 2π wrapped into [-π, π], and the
`dir_arrow` rotation-matrix column round-trips through its angle back to
itself. -/
theorem interpolate_remap_inverts_interpolate_map
    (traj : List (List Entry)) (hlen : traj.length = 37)
    (hmatcol : ∀ e ∈ traj.getD interpolate_map_params.1 [],
      ∃ θ : ℝ, e = Entry.mat (angle2mat_xy θ))
    (hscalcols : ∀ i ∈ interpolate_map_params.2,
      ∀ e ∈ traj.getD i [], ∃ x : ℝ, e = Entry.scalar x) :
    (map_then_remap traj).length = traj.length ∧
    (∀ i, i ∉ interpolate_map_params.2 → i ≠ interpolate_map_params.1 →
      (map_then_remap traj).getD i [] = traj.getD i []) ∧
    ((map_then_remap traj).getD interpolate_map_params.1 [] =
      traj.getD interpolate_map_params.1 []) ∧
    (∀ i ∈ interpolate_map_params.2,
      ((map_then_remap traj).getD i []).length = (traj.getD i []).length ∧
      ∀ j, j < (traj.getD i []).length →
        ∃ x w : ℝ, ∃ k : ℤ,
          (traj.getD i []).getD j (Entry.scalar 0) = Entry.scalar x ∧
          ((map_then_remap traj).getD i []).getD j (Entry.scalar 0) =
            Entry.scalar w ∧
          w = x + 2 * π * k ∧ -π ≤ w ∧ w < π) := by
  rw [interpolate_map_params_eval] at hmatcol hscalcols ⊢
  simp only at hmatcol hscalcols ⊢
  have hmtr : map_then_remap traj =
      interpolate_remap 36 [3, 4, 5] (interpolate_map 36 [3, 4, 5] traj) := by
    simp [map_then_remap, interpolate_map_params_eval,
      interpolate_remap_params_eval]
  have hMdecomp : interpolate_map 36 [3, 4, 5] traj =
      (mapIdxFrom (fun i col =>
        if i ∈ [3, 4, 5] then
          (unwrapList (col.map Entry.toScalar)).map Entry.scalar
        else col) 0 traj).set 36
        ((traj.getD 36 []).map
          (fun e => Entry.scalar (mat2angle_xy e.toMat))) := rfl
  have hMlen : (interpolate_map 36 [3, 4, 5] traj).length = 37 := by
    rw [hMdecomp, List.length_set, length_mapIdxFrom, hlen]
  have hRdecomp : interpolate_remap 36 [3, 4, 5]
        (interpolate_map 36 [3, 4, 5] traj) =
      (mapIdxFrom (fun i col =>
        if i ∈ [3, 4, 5] then
          col.map (fun e => Entry.scalar (transform_angle_2pi e.toScalar))
        else col) 0 (interpolate_map 36 [3, 4, 5] traj)).set 36
        (((interpolate_map 36 [3, 4, 5] traj).getD 36 []).map
          (fun e => Entry.mat (angle2mat_xy e.toScalar))) := rfl
  have hRlen : (map_then_remap traj).length = 37 := by
    rw [hmtr, hRdecomp, List.length_set, length_mapIdxFrom, hMlen]
  refine ⟨by rw [hRlen, hlen], ?_, ?_, ?_⟩
  · -- columns that are neither trunk-orientation nor dir_arrow are unchanged
    intro i hitr hir
    rcases Nat.lt_or_ge i 37 with hi | hi
    · have hMcol : (interpolate_map 36 [3, 4, 5] traj)[i]? = traj[i]? := by
        rw [hMdecomp, setMapIdx_getElem?_ne _ _ _ _ _ (Ne.symm hir)]
        rw [getElem?_eq_some_getD traj i [] (by omega)]
        simp [hitr]
      have hRcol : (map_then_remap traj)[i]? = traj[i]? := by
        rw [hmtr, hRdecomp, setMapIdx_getElem?_ne _ _ _ _ _ (Ne.symm hir),
          hMcol, getElem?_eq_some_getD traj i [] (by omega)]
        simp [hitr]
      rw [List.getD_eq_getElem?_getD, List.getD_eq_getElem?_getD, hRcol]
    · rw [List.getD_eq_default _ _ (by omega : traj.length ≤ i),
        List.getD_eq_default _ _ (by rw [hRlen]; omega)]
  · -- the dir_arrow column round-trips back to the original matrices
    have hM36 : (interpolate_map 36 [3, 4, 5] traj)[36]? =
        some ((traj.getD 36 []).map
          (fun e => Entry.scalar (mat2angle_xy e.toMat))) := by
      rw [hMdecomp]
      exact setMapIdx_getElem?_eq _ _ _ _ (by omega)
    have hM36' : (interpolate_map 36 [3, 4, 5] traj).getD 36 [] =
        (traj.getD 36 []).map (fun e => Entry.scalar (mat2angle_xy e.toMat)) := by
      rw [List.getD_eq_getElem?_getD, hM36]
      rfl
    have hR36 : (map_then_remap traj)[36]? =
        some (((interpolate_map 36 [3, 4, 5] traj).getD 36 []).map
          (fun e => Entry.mat (angle2mat_xy e.toScalar))) := by
      rw [hmtr, hRdecomp]
      exact setMapIdx_getElem?_eq _ _ _ _ (by omega)
    rw [List.getD_eq_getElem?_getD, hR36]
    simp only [Option.getD_some, hM36', List.map_map]
    have hid : ∀ e ∈ traj.getD 36 [],
        ((fun e => Entry.mat (angle2mat_xy e.toScalar)) ∘
          (fun e => Entry.scalar (mat2angle_xy e.toMat))) e = id e := by
      intro e he
      obtain ⟨θ, rfl⟩ := hmatcol e he
      show Entry.mat (angle2mat_xy (mat2angle_xy (angle2mat_xy θ))) =
        Entry.mat (angle2mat_xy θ)
      rw [mat2angle_angle2mat, angle2mat_add_int_mul_two_pi]
    rw [List.map_congr_left hid, List.map_id]
  · -- the trunk-orientation columns are wrapped into [-π, π) modulo 2π
    intro i hmem
    have hi3 : i = 3 ∨ i = 4 ∨ i = 5 := by simpa using hmem
    have hi37 : i < 37 := by omega
    have hi36 : i ≠ 36 := by omega
    have hMcol? : (interpolate_map 36 [3, 4, 5] traj)[i]? =
        some ((unwrapList ((traj.getD i []).map Entry.toScalar)).map
          Entry.scalar) := by
      rw [hMdecomp, setMapIdx_getElem?_ne _ _ _ _ _ (Ne.symm hi36),
        getElem?_eq_some_getD traj i [] (by omega)]
      simp [hmem]
    have hRcol? : (map_then_remap traj)[i]? =
        some (((unwrapList ((traj.getD i []).map Entry.toScalar)).map
            Entry.scalar).map
          (fun e => Entry.scalar (transform_angle_2pi e.toScalar))) := by
      rw [hmtr, hRdecomp, setMapIdx_getElem?_ne _ _ _ _ _ (Ne.symm hi36),
        hMcol?]
      simp [hmem]
    have hRcol := getD_eq_of_getElem? ([] : List Entry) hRcol?
    obtain ⟨hulen, huval⟩ :=
      unwrapList_spec ((traj.getD i []).map Entry.toScalar)
    have hslen : ((traj.getD i []).map Entry.toScalar).length =
        (traj.getD i []).length := List.length_map _ _
    constructor
    · rw [hRcol, List.length_map, List.length_map, hulen, hslen]
    · intro j hj
      have hjget : (traj.getD i []).getD j (Entry.scalar 0) =
          (traj.getD i [])[j] :=
        getD_eq_of_getElem? _ (List.getElem?_eq_getElem hj)
      have hemem : (traj.getD i [])[j] ∈ traj.getD i [] :=
        List.getElem_mem hj
      obtain ⟨x, hx⟩ := hscalcols i hmem _ hemem
      have hsj : ((traj.getD i []).map Entry.toScalar).getD j 0 = x := by
        refine getD_eq_of_getElem? _ ?_
        rw [List.getElem?_map, List.getElem?_eq_getElem hj, hx]
        rfl
      obtain ⟨k₁, hk₁⟩ := huval j
      rw [hsj] at hk₁
      have hjlt : j <
          (unwrapList ((traj.getD i []).map Entry.toScalar)).length := by
        rw [hulen, hslen]; exact hj
      have hu? : (unwrapList ((traj.getD i []).map Entry.toScalar))[j]? =
          some (x + 2 * π * k₁) := by
        rw [← hk₁]
        exact getElem?_eq_some_getD _ _ 0 hjlt
      have hRj : ((map_then_remap traj).getD i []).getD j (Entry.scalar 0) =
          Entry.scalar (transform_angle_2pi (x + 2 * π * k₁)) := by
        refine getD_eq_of_getElem? _ ?_
        rw [hRcol, List.getElem?_map, List.getElem?_map, hu?]
        rfl
      obtain ⟨k₂, hw, hlb, hub⟩ := transform_angle_2pi_spec (x + 2 * π * k₁)
      refine ⟨x, transform_angle_2pi (x + 2 * π * k₁), k₁ + k₂,
        by rw [hjget, hx], hRj, ?_, hlb, hub⟩
      rw [hw]; push_cast; ring

/-- A well-formed 37-column trajectory with scalar trunk columns and an
xy-rotation matrix in the `dir_arrow` column, used to witness C1. -/
noncomputable def witness_traj : List (List Entry) :=
  List.replicate 36 [Entry.scalar 0] ++ [[Entry.mat (angle2mat_xy 0)]]

/-- Witness for C1 at the concrete trajectory `witness_traj`. -/
theorem interpolate_remap_inverts_interpolate_map_witness :
    (map_then_remap witness_traj).length = witness_traj.length ∧
    (∀ i, i ∉ interpolate_map_params.2 → i ≠ interpolate_map_params.1 →
      (map_then_remap witness_traj).getD i [] = witness_traj.getD i []) ∧
    ((map_then_remap witness_traj).getD interpolate_map_params.1 [] =
      witness_traj.getD interpolate_map_params.1 []) ∧
    (∀ i ∈ interpolate_map_params.2,
      ((map_then_remap witness_traj).getD i []).length =
        (witness_traj.getD i []).length ∧
      ∀ j, j < (witness_traj.getD i []).length →
        ∃ x w : ℝ, ∃ k : ℤ,
          (witness_traj.getD i []).getD j (Entry.scalar 0) = Entry.scalar x ∧
          ((map_then_remap witness_traj).getD i []).getD j (Entry.scalar 0) =
            Entry.scalar w ∧
          w = x + 2 * π * k ∧ -π ≤ w ∧ w < π) := by
  refine interpolate_remap_inverts_interpolate_map witness_traj rfl ?_ ?_
  · intro e he
    have h36 : witness_traj.getD interpolate_map_params.1 [] =
        [Entry.mat (angle2mat_xy 0)] := rfl
    rw [h36, List.mem_singleton] at he
    exact ⟨0, he⟩
  · intro i hi e he
    have hi3 : i = 3 ∨ i = 4 ∨ i = 5 := by
      rw [interpolate_map_params_eval] at hi
      simpa using hi
    rcases hi3 with rfl | rfl | rfl
    · have h0 : witness_traj.getD 3 [] = [Entry.scalar 0] := rfl
      rw [h0, List.mem_singleton] at he
      exact ⟨0, he⟩
    · have h0 : witness_traj.getD 4 [] = [Entry.scalar 0] := rfl
      rw [h0, List.mem_singleton] at he
      exact ⟨0, he⟩
    · have h0 : witness_traj.getD 5 [] = [Entry.scalar 0] := rfl
      rw [h0, List.mem_singleton] at he
      exact ⟨0, he⟩

/-! ## Theorems about `generate` -/

/-- C6: `generate` returns an MDP exactly when the task is "simple" or
"hard" and the dataset type is "real"; every other combination raises,
in particular `dataset_type = "perfect"`. -/
theorem generate_ok_iff :
    (∀ task dataset_type : String,
      (∃ m, generate task dataset_type = Except.ok m) ↔
        ((task = "simple" ∨ task = "hard") ∧ dataset_type = "real")) ∧
    (∀ m, generate ("simple") ("perfect") ≠ Except.ok m) := by
  have hmain : ∀ task dataset_type : String,
      (∃ m, generate task dataset_type = Except.ok m) ↔
        ((task = "simple" ∨ task = "hard") ∧ dataset_type = "real") := by
    intro task dataset_type
    by_cases hs : task = "simple"
    · by_cases hr : dataset_type = "real" <;>
        simp [generate, check_validity_task_mode_dataset,
          valid_task_confs_tasks, valid_task_confs_data_types, hs, hr]
    · by_cases hh : task = "hard"
      · by_cases hr : dataset_type = "real" <;>
          simp [generate, check_validity_task_mode_dataset,
            valid_task_confs_tasks, valid_task_confs_data_types, hs, hh, hr]
      · simp [generate, check_validity_task_mode_dataset,
          valid_task_confs_tasks, valid_task_confs_data_types, hs, hh]
  refine ⟨hmain, fun m hok => ?_⟩
  have := (hmain ("simple") ("perfect")).mp ⟨m, hok⟩
  simp at this

/-- Witness for C6: generating the "simple" task with the "real" dataset
succeeds, and with the "perfect" dataset it raises. -/
theorem generate_ok_iff_witness :
    (∃ m, generate ("simple") ("real") = Except.ok m) ∧
      generate ("simple") ("perfect") ≠
        Except.ok ⟨"simple", "perfect", ""⟩ :=
  ⟨(generate_ok_iff.1 ("simple") ("real")).mpr ⟨Or.inl rfl, rfl⟩,
    generate_ok_iff.2 ⟨"simple", "perfect", ""⟩⟩

end UnitreeA1
